import Mathlib

/-!
Verification of the streaming area-detector core of `ophyd-epics-devices`
(`src/ophyd_epics_devices/areadetector.py`), as a shallow embedding.

Modelling conventions:
* Time is modelled in abstract integral time-units (`Nat`); the monotonic
  clock value `time.monotonic()` observed by a call is passed in as an
  explicit `now` argument.  The Python stall test
  `time.monotonic() - self._last_flush > FRAME_TIMEOUT` is rendered as
  `last_flush + FRAME_TIMEOUT < now`, which is the same comparison without
  subtraction.
* Fresh identifiers produced by `bluesky.utils.new_uid` and by
  `event_model.compose_stream_resource` are passed in as explicit `uid`
  arguments.
* Hardware signal writes performed by a lifecycle method are recorded in an
  explicit operation trace (`List HwOp`) alongside the resulting state, so
  that ordering ("command capture only after configuration") and absence of
  hardware operations on a precondition failure are provable.
* A raised Python exception is rendered as an explicit error value
  (`PollResult.stall` for the tracker, `Except.error` for the lifecycle
  asserts); the state component returned alongside it is the state the
  Python object is left in when the exception propagates.
-/

namespace AreaDetector

/-- Acquisition modes of the driver (`ImageMode`). -/
inductive ImageMode where
  | single
  | multiple
  | continuous
deriving Repr, DecidableEq

/-- Write modes of the HDF writer plugin (`FileWriteMode`). -/
inductive FileWriteMode where
  | single
  | capture
  | stream
deriving Repr, DecidableEq

/-- How long to wait for new frames before timing out (`FRAME_TIMEOUT`). -/
def FRAME_TIMEOUT : Nat := 120

/-- The stream-resource document produced by
`event_model.compose_stream_resource` in `_HDFResource.__init__`:
an opaque identifier plus the addressing fields passed at construction. -/
structure StreamResource where
  uid : String
  spec : String
  root : String
  resource_path : String
deriving Repr, DecidableEq

/-- A half-open numeric range `dict(start=..., stop=...)`. -/
structure StreamRange where
  start : Nat
  stop : Nat
deriving Repr, DecidableEq

/-- A stream-datum document as produced by the `_compose_datum` closure:
it references the owning stream resource by uid and carries the index and
sequence-number ranges. -/
structure StreamDatum where
  stream_resource : String
  data_keys : List String
  indices : StreamRange
  seq_nums : StreamRange
deriving Repr, DecidableEq

/-- State of `_HDFResource`: the emission watermark `_last_emitted`, the
stall timestamp `_last_flush`, the data-key name `_hdf_name` and the
composed stream-resource document. -/
structure HDFResource where
  hdf_name : String
  last_emitted : Nat
  last_flush : Nat
  stream_resource : StreamResource
deriving Repr, DecidableEq

/-- `_HDFResource.__init__(hdf_name, full_file_name)` at clock value `now`,
with `uid` the fresh identifier chosen by `compose_stream_resource`. -/
def HDFResource.init (hdf_name full_file_name uid : String) (now : Nat) :
    HDFResource :=
  { hdf_name := hdf_name
    last_emitted := 0
    last_flush := now
    stream_resource :=
      { uid := uid
        spec := "AD_HDF5_SWMR_SLICE"
        root := "/"
        resource_path := full_file_name } }

/-- The `_compose_datum(data_keys=[hdf_name], indices=..., seq_nums=...)`
call: `seq_nums` is passed the same dict as `indices`. -/
def HDFResource.composeDatum (s : HDFResource) (indices : StreamRange) :
    StreamDatum :=
  { stream_resource := s.stream_resource.uid
    data_keys := [s.hdf_name]
    indices := indices
    seq_nums := indices }

/-- The stall error message
`f"{self._hdf_name}: writing stalled on frame {num_captured}"`. -/
def stallMessage (hdf_name : String) (num_captured : Nat) : String :=
  hdf_name ++ ": writing stalled on frame " ++ toString num_captured

/-- The three outcomes of one `_HDFResource.stream_datum` call: a new chunk
document, nothing (`return None`), or a raised `TimeoutError`. -/
inductive PollResult where
  | chunk (d : StreamDatum)
  | quiet
  | stall (msg : String)
deriving Repr, DecidableEq

/-- `_HDFResource.stream_datum(num_captured)` observed at clock value
`now`, returning the outcome together with the state the object is left
in. -/
def HDFResource.stream_datum (s : HDFResource) (num_captured now : Nat) :
    PollResult × HDFResource :=
  if s.last_emitted < num_captured then
    let indices : StreamRange := { start := s.last_emitted, stop := num_captured }
    let datum_doc := s.composeDatum indices
    (PollResult.chunk datum_doc,
      { s with last_emitted := num_captured, last_flush := now })
  else if s.last_flush + FRAME_TIMEOUT < now then
    (PollResult.stall (stallMessage s.hdf_name num_captured), s)
  else
    (PollResult.quiet, s)

/-- Run a finite sequence of `stream_datum` calls against one tracker.
Each element of `polls` is an observed `(num_captured, now)` pair.  The
emitted chunk documents are collected; a quiescent or stalled call emits
nothing and (as proved below) leaves the state unchanged. -/
def pollRun (s : HDFResource) : List (Nat × Nat) → List StreamDatum × HDFResource
  | [] => ([], s)
  | p :: rest =>
    match s.stream_datum p.1 p.2 with
    | (PollResult.chunk d, s1) =>
      let out := pollRun s1 rest
      (d :: out.1, out.2)
    | (_, s1) => pollRun s1 rest

/-- The chunks `ds` form a contiguous chain of nonempty half-open ranges
from `lo` to `hi`: each chunk starts where the previous one stopped, the
first starts at `lo`, and the last stops at `hi`. -/
def chunkChain : Nat → List StreamDatum → Nat → Prop
  | lo, [], hi => lo = hi
  | lo, d :: ds, hi =>
    d.indices.start = lo ∧ lo < d.indices.stop ∧ chunkChain d.indices.stop ds hi

instance chunkChain.instDecidable :
    (lo : Nat) → (ds : List StreamDatum) → (hi : Nat) →
    Decidable (chunkChain lo ds hi)
  | lo, [], hi => decidable_of_iff (lo = hi) Iff.rfl
  | lo, d :: ds, hi =>
    have : Decidable (chunkChain d.indices.stop ds hi) :=
      chunkChain.instDecidable _ ds hi
    decidable_of_iff
      (d.indices.start = lo ∧ lo < d.indices.stop ∧ chunkChain d.indices.stop ds hi)
      Iff.rfl

/-- Hardware signal operations issued by the lifecycle methods of
`HDFStreamerDet`.  A plain `set` is a `signal.set(value)` await; the
`setAndWait` variants are `set_and_wait_for_value(signal, value)` calls
(command plus synchronous wait for the readback to confirm); the `await`
variants await a previously retained `AsyncStatus`. -/
inductive HwOp where
  | setWaitForPlugins (b : Bool)
  | setLazyOpen (b : Bool)
  | setSwmrMode (b : Bool)
  | setFilePath (p : String)
  | setFileName (n : String)
  | setFileTemplate (t : String)
  | setNumCapture (n : Nat)
  | setFileWriteMode (m : FileWriteMode)
  | setAndWaitCapture (b : Bool)
  | setImageMode (m : ImageMode)
  | setAcquire (v : Bool) (timeout : Option Nat)
  | setAndWaitAcquire (b : Bool)
  | setCaptureNoWait (b : Bool)
  | awaitCaptureStatus
  | awaitStartStatus
  | setFlushNow (v : Nat)
deriving Repr, DecidableEq

/-- Values held by the `ADDriver` signals that the modelled lifecycle
methods touch.  `acquire_time` is the exposure time readback, in the same
abstract time-units as the clock. -/
structure ADDriver where
  image_mode : ImageMode
  acquire : Bool
  acquire_time : Nat
  wait_for_plugins : Bool
deriving Repr, DecidableEq

/-- Values held by the `NDFileHDF` writer signals that the modelled
lifecycle methods write.  The read-only signals `num_captured` and
`full_file_name` are produced by the hardware side and are passed to
`collect_asset_docs` as arguments instead. -/
structure NDFileHDF where
  file_path : String
  file_name : String
  file_template : String
  num_capture : Nat
  file_write_mode : FileWriteMode
  swmr_mode : Bool
  lazy_open : Bool
  capture : Bool
deriving Repr, DecidableEq

/-- Modelled from the spec: `DEFAULT_TIMEOUT` is imported from
`ophyd.v2.core`, which is not part of this repository; the spec describes
it only as "a fixed base" for the trigger timeout.  The value used by that
library is 10 time-units; no theorem below depends on the value. -/
def DEFAULT_TIMEOUT : Nat := 10

/-- State of an `HDFStreamerDet`: its name, the lazily created per-session
tracker `_resource`, and whether the `_capture_status` and `_start_status`
futures have been stashed (`true` models a stored `AsyncStatus`, `false`
models `None`). -/
structure HDFStreamerDet where
  name : String
  resource : Option HDFResource
  capture_status : Bool
  start_status : Bool
  drv : ADDriver
  hdf : NDFileHDF
deriving Repr, DecidableEq

/-- `HDFStreamerDet.stage()`, with the directory-provider result and the
fresh `new_uid()` suffix passed in.  The eight configuration writes are
issued concurrently via `asyncio.gather` and jointly awaited; only then is
capture commanded with `set_and_wait_for_value`, whose status is
retained.  `_resource` is reset to `None` first. -/
def stage (det : HDFStreamerDet) (directory uid : String) :
    List HwOp × HDFStreamerDet :=
  let file_name := det.name ++ "-" ++ uid
  ([HwOp.setWaitForPlugins true, HwOp.setLazyOpen true, HwOp.setSwmrMode true,
    HwOp.setFilePath directory, HwOp.setFileName file_name,
    HwOp.setFileTemplate "%s/%s.h5", HwOp.setNumCapture 0,
    HwOp.setFileWriteMode FileWriteMode.stream, HwOp.setAndWaitCapture true],
   { det with
     resource := none
     capture_status := true
     drv := { det.drv with wait_for_plugins := true }
     hdf :=
       { det.hdf with
         lazy_open := true
         swmr_mode := true
         file_path := directory
         file_name := file_name
         file_template := "%s/%s.h5"
         num_capture := 0
         file_write_mode := FileWriteMode.stream
         capture := true } })

/-- `HDFStreamerDet.trigger()`: set single image mode, then command
acquire with timeout `DEFAULT_TIMEOUT + acquire_time`. -/
def trigger (det : HDFStreamerDet) : List HwOp × HDFStreamerDet :=
  let frame_timeout := DEFAULT_TIMEOUT + det.drv.acquire_time
  ([HwOp.setImageMode ImageMode.single,
    HwOp.setAcquire true (some frame_timeout)],
   { det with
     drv := { det.drv with image_mode := ImageMode.single, acquire := true } })

/-- `HDFStreamerDet.kickoff()`: set multiple image mode, then command
acquire with `set_and_wait_for_value`, retaining the status.  The source
performs no staging-precondition check, so the model cannot fail. -/
def kickoff (det : HDFStreamerDet) : List HwOp × HDFStreamerDet :=
  ([HwOp.setImageMode ImageMode.multiple, HwOp.setAndWaitAcquire true],
   { det with
     start_status := true
     drv := { det.drv with image_mode := ImageMode.multiple, acquire := true } })

/-- `HDFStreamerDet.complete()`: `assert self._start_status, "Kickoff not
run"`, then await the retained status.  On the assertion failure no
hardware operation is issued. -/
def complete (det : HDFStreamerDet) : List HwOp × Except String Unit :=
  if det.start_status then
    ([HwOp.awaitStartStatus], Except.ok ())
  else
    ([], Except.error "Kickoff not run")

/-- `HDFStreamerDet.unstage()`: `assert self._capture_status, "Stage not
run"`, then command capture off without waiting and await the retained
capture status.  On the assertion failure no hardware operation is
issued. -/
def unstage (det : HDFStreamerDet) :
    List HwOp × Except String HDFStreamerDet :=
  if det.capture_status then
    ([HwOp.setCaptureNoWait false, HwOp.awaitCaptureStatus],
     Except.ok { det with hdf := { det.hdf with capture := false } })
  else
    ([], Except.error "Stage not run")

/-- One `(kind, payload)` pair yielded by `collect_asset_docs`. -/
inductive Asset where
  | stream_resource (r : StreamResource)
  | stream_datum (d : StreamDatum)
deriving Repr, DecidableEq

/-- Outcome of one `collect_asset_docs` call: the assets yielded, the
hardware operations issued, the detector state left behind, and the stall
message when the tracker raised `TimeoutError` (the assets yielded before
the raise are kept, as the async generator had already yielded them). -/
structure CollectResult where
  assets : List Asset
  ops : List HwOp
  det : HDFStreamerDet
  stalled : Option String
deriving Repr, DecidableEq

/-- Tail of `collect_asset_docs` after the tracker exists: call
`stream_datum`; on a chunk, flush the writer and yield the datum. -/
def collectPoll (det : HDFStreamerDet) (resourceAssets : List Asset)
    (r : HDFResource) (num_captured now : Nat) : CollectResult :=
  match r.stream_datum num_captured now with
  | (PollResult.chunk d, r1) =>
    { assets := resourceAssets ++ [Asset.stream_datum d]
      ops := [HwOp.setFlushNow 1]
      det := { det with resource := some r1 }
      stalled := none }
  | (PollResult.quiet, r1) =>
    { assets := resourceAssets
      ops := []
      det := { det with resource := some r1 }
      stalled := none }
  | (PollResult.stall msg, r1) =>
    { assets := resourceAssets
      ops := []
      det := { det with resource := some r1 }
      stalled := some msg }

/-- `HDFStreamerDet.collect_asset_docs()` with the hardware-produced
readbacks (`num_captured`, `full_file_name`), the fresh resource `uid` and
the clock value passed in.  If no frame has been committed the generator
yields nothing; otherwise the tracker is created lazily on first use (also
yielding the stream-resource document) and polled. -/
def collect_asset_docs (det : HDFStreamerDet) (num_captured : Nat)
    (full_file_name uid : String) (now : Nat) : CollectResult :=
  if num_captured = 0 then
    { assets := [], ops := [], det := det, stalled := none }
  else
    match det.resource with
    | none =>
      let r := HDFResource.init det.name full_file_name uid now
      collectPoll det [Asset.stream_resource r.stream_resource] r num_captured now
    | some r => collectPoll det [] r num_captured now

/-- Inputs observed by one `collect_asset_docs` call. -/
structure CollectInput where
  num_captured : Nat
  full_file_name : String
  uid : String
  now : Nat
deriving Repr, DecidableEq

/-- Run a finite sequence of `collect_asset_docs` calls within one
session, concatenating the yielded assets. -/
def collectRun (det : HDFStreamerDet) :
    List CollectInput → List Asset × HDFStreamerDet
  | [] => ([], det)
  | i :: rest =>
    let r := collect_asset_docs det i.num_captured i.full_file_name i.uid i.now
    let out := collectRun r.det rest
    (r.assets ++ out.1, out.2)

/-- A concrete tracker state used to evaluate the theorems below on
explicit inputs. -/
def sampleResource (last_emitted last_flush : Nat) : HDFResource :=
  { hdf_name := "det"
    last_emitted := last_emitted
    last_flush := last_flush
    stream_resource :=
      { uid := "u0"
        spec := "AD_HDF5_SWMR_SLICE"
        root := "/"
        resource_path := "f.h5" } }

/-- A concrete freshly constructed detector (`__init__` state: no
resource, no stashed statuses) used to evaluate the theorems below on
explicit inputs. -/
def sampleDet : HDFStreamerDet :=
  { name := "det"
    resource := none
    capture_status := false
    start_status := false
    drv :=
      { image_mode := ImageMode.continuous
        acquire := false
        acquire_time := 1
        wait_for_plugins := false }
    hdf :=
      { file_path := ""
        file_name := ""
        file_template := ""
        num_capture := 1000
        file_write_mode := FileWriteMode.single
        swmr_mode := false
        lazy_open := false
        capture := false } }

/-! Helper lemmas about `stream_datum`. -/

theorem stream_datum_progress_eq (s : HDFResource) (c now : Nat)
    (h : s.last_emitted < c) :
    s.stream_datum c now =
      (PollResult.chunk (s.composeDatum { start := s.last_emitted, stop := c }),
       { s with last_emitted := c, last_flush := now }) := by
  simp [HDFResource.stream_datum, h]

theorem stream_datum_stall_eq (s : HDFResource) (c now : Nat)
    (h1 : ¬ s.last_emitted < c) (h2 : s.last_flush + FRAME_TIMEOUT < now) :
    s.stream_datum c now = (PollResult.stall (stallMessage s.hdf_name c), s) := by
  simp [HDFResource.stream_datum, h1, h2]

theorem stream_datum_quiet_eq (s : HDFResource) (c now : Nat)
    (h1 : ¬ s.last_emitted < c) (h2 : ¬ s.last_flush + FRAME_TIMEOUT < now) :
    s.stream_datum c now = (PollResult.quiet, s) := by
  simp [HDFResource.stream_datum, h1, h2]

theorem stream_datum_snd_stream_resource (s : HDFResource) (c now : Nat) :
    ((s.stream_datum c now).2).stream_resource = s.stream_resource := by
  by_cases h1 : s.last_emitted < c
  · rw [stream_datum_progress_eq s c now h1]
  · by_cases h2 : s.last_flush + FRAME_TIMEOUT < now
    · rw [stream_datum_stall_eq s c now h1 h2]
    · rw [stream_datum_quiet_eq s c now h1 h2]

theorem stream_datum_chunk_uid (s : HDFResource) (c now : Nat) (d : StreamDatum)
    (h : (s.stream_datum c now).1 = PollResult.chunk d) :
    d.stream_resource = s.stream_resource.uid := by
  by_cases h1 : s.last_emitted < c
  · rw [stream_datum_progress_eq s c now h1] at h
    cases h
    rfl
  · by_cases h2 : s.last_flush + FRAME_TIMEOUT < now
    · rw [stream_datum_stall_eq s c now h1 h2] at h
      cases h
    · rw [stream_datum_quiet_eq s c now h1 h2] at h
      cases h

theorem stream_datum_no_progress_snd (s : HDFResource) (c now : Nat)
    (h1 : ¬ s.last_emitted < c) : (s.stream_datum c now).2 = s := by
  by_cases h2 : s.last_flush + FRAME_TIMEOUT < now
  · rw [stream_datum_stall_eq s c now h1 h2]
  · rw [stream_datum_quiet_eq s c now h1 h2]

/-! Helper lemmas about `pollRun`. -/

theorem pollRun_cons_progress (s : HDFResource) (p : Nat × Nat)
    (rest : List (Nat × Nat)) (h : s.last_emitted < p.1) :
    pollRun s (p :: rest) =
      ((s.composeDatum { start := s.last_emitted, stop := p.1 }) ::
         (pollRun { s with last_emitted := p.1, last_flush := p.2 } rest).1,
       (pollRun { s with last_emitted := p.1, last_flush := p.2 } rest).2) := by
  rw [pollRun, stream_datum_progress_eq s p.1 p.2 h]

theorem pollRun_cons_no_progress (s : HDFResource) (p : Nat × Nat)
    (rest : List (Nat × Nat)) (h1 : ¬ s.last_emitted < p.1) :
    pollRun s (p :: rest) = pollRun s rest := by
  by_cases h2 : s.last_flush + FRAME_TIMEOUT < p.2
  · rw [pollRun, stream_datum_stall_eq s p.1 p.2 h1 h2]
  · rw [pollRun, stream_datum_quiet_eq s p.1 p.2 h1 h2]

theorem pollRun_chunkChain (polls : List (Nat × Nat)) : ∀ s : HDFResource,
    chunkChain s.last_emitted (pollRun s polls).1
      (pollRun s polls).2.last_emitted := by
  induction polls with
  | nil =>
    intro s
    rw [pollRun]
    exact rfl
  | cons p rest ih =>
    intro s
    by_cases h : s.last_emitted < p.1
    · rw [pollRun_cons_progress s p rest h]
      exact ⟨rfl, h, ih { s with last_emitted := p.1, last_flush := p.2 }⟩
    · rw [pollRun_cons_no_progress s p rest h]
      exact ih s

theorem pollRun_last_emitted (polls : List (Nat × Nat)) : ∀ s : HDFResource,
    (pollRun s polls).2.last_emitted =
      (polls.map Prod.fst).foldl max s.last_emitted := by
  induction polls with
  | nil =>
    intro s
    rw [pollRun]
    rfl
  | cons p rest ih =>
    intro s
    by_cases h : s.last_emitted < p.1
    · rw [pollRun_cons_progress s p rest h, List.map_cons, List.foldl_cons,
        Nat.max_eq_right (Nat.le_of_lt h)]
      exact ih { s with last_emitted := p.1, last_flush := p.2 }
    · rw [pollRun_cons_no_progress s p rest h, List.map_cons, List.foldl_cons,
        Nat.max_eq_left (Nat.le_of_not_lt h)]
      exact ih s

/-! Helper lemmas about `chunkChain`. -/

theorem chunkChain_getLast : ∀ (ds : List StreamDatum) (lo hi : Nat),
    chunkChain lo ds hi → ds ≠ [] →
    (ds.getLast?).map (fun d => d.indices.stop) = some hi
  | [], _, _, _, hne => absurd rfl hne
  | [d], lo, hi, hch, _ => by
    rcases hch with ⟨_, _, hlast⟩
    simp [List.getLast?]
    exact hlast
  | d :: d2 :: ds, lo, hi, hch, _ => by
    rcases hch with ⟨_, _, htail⟩
    rw [List.getLast?_cons_cons]
    exact chunkChain_getLast (d2 :: ds) d.indices.stop hi htail (by simp)

theorem chunkChain_start_mono : ∀ (ds : List StreamDatum) (lo hi : Nat),
    chunkChain lo ds hi → ∀ d ∈ ds, lo ≤ d.indices.start
  | [], _, _, _, _, hd => absurd hd (List.not_mem_nil _)
  | d :: ds, lo, hi, hch, e, he => by
    rcases hch with ⟨hstart, hlt, htail⟩
    rcases List.mem_cons.mp he with rfl | he2
    · exact Nat.le_of_eq hstart.symm
    · have h2 := chunkChain_start_mono ds d.indices.stop hi htail e he2
      have : lo ≤ d.indices.stop := Nat.le_of_lt hlt
      exact Nat.le_trans this h2

theorem chunkChain_pairwise : ∀ (ds : List StreamDatum) (lo hi : Nat),
    chunkChain lo ds hi →
    ds.Pairwise (fun a b => a.indices.stop ≤ b.indices.start)
  | [], _, _, _ => List.Pairwise.nil
  | d :: ds, lo, hi, hch => by
    rcases hch with ⟨hstart, hlt, htail⟩
    exact List.Pairwise.cons
      (fun b hb => chunkChain_start_mono ds d.indices.stop hi htail b hb)
      (chunkChain_pairwise ds d.indices.stop hi htail)

theorem foldl_max_getLast : ∀ (l : List Nat) (a c : Nat),
    l.Pairwise (· ≤ ·) → (∀ x ∈ l, a ≤ x) → l.getLast? = some c →
    l.foldl max a = c
  | [], _, _, _, _, hlast => by cases hlast
  | [x], a, c, _, hle, hlast => by
    simp [List.getLast?] at hlast
    rw [List.foldl_cons, List.foldl_nil,
      Nat.max_eq_right (hle x (List.mem_singleton_self x))]
    exact hlast
  | x :: y :: ys, a, c, hsorted, hle, hlast => by
    rw [List.getLast?_cons_cons] at hlast
    rw [List.foldl_cons, Nat.max_eq_right (hle x (by simp))]
    rcases List.pairwise_cons.mp hsorted with ⟨hx, htail⟩
    exact foldl_max_getLast (y :: ys) x c htail hx hlast

/-! Helper lemmas about `collect_asset_docs` and `collectRun`. -/

theorem collect_zero (det : HDFStreamerDet) (full_file_name uid : String)
    (now : Nat) :
    collect_asset_docs det 0 full_file_name uid now =
      { assets := [], ops := [], det := det, stalled := none } := by
  simp [collect_asset_docs]

theorem collectPoll_det_resource (det : HDFStreamerDet)
    (resourceAssets : List Asset) (r : HDFResource) (c now : Nat) :
    (collectPoll det resourceAssets r c now).det =
      { det with resource := some (r.stream_datum c now).2 } := by
  rw [collectPoll]
  rcases hsd : r.stream_datum c now with ⟨pr, r1⟩
  cases pr <;> rfl

theorem collectPoll_assets (det : HDFStreamerDet)
    (resourceAssets : List Asset) (r : HDFResource) (c now : Nat) :
    (collectPoll det resourceAssets r c now).assets = resourceAssets ∨
    ∃ d, (collectPoll det resourceAssets r c now).assets =
        resourceAssets ++ [Asset.stream_datum d] ∧
      d.stream_resource = r.stream_resource.uid := by
  rw [collectPoll]
  rcases hsd : r.stream_datum c now with ⟨pr, r1⟩
  cases pr with
  | chunk d =>
    refine Or.inr ⟨d, rfl, ?_⟩
    exact stream_datum_chunk_uid r c now d (by rw [hsd])
  | quiet => exact Or.inl rfl
  | stall msg => exact Or.inl rfl

theorem collectRun_some (inputs : List CollectInput) :
    ∀ (det : HDFStreamerDet) (r : HDFResource), det.resource = some r →
    (∀ a ∈ (collectRun det inputs).1, ∃ d, a = Asset.stream_datum d ∧
        d.stream_resource = r.stream_resource.uid) ∧
    ∃ r2, (collectRun det inputs).2.resource = some r2 ∧
      r2.stream_resource = r.stream_resource := by
  induction inputs with
  | nil =>
    intro det r hres
    rw [collectRun]
    exact ⟨fun a ha => absurd ha (List.not_mem_nil a), r, hres, rfl⟩
  | cons i rest ih =>
    intro det r hres
    rw [collectRun]
    by_cases h0 : i.num_captured = 0
    · rw [h0, collect_zero]
      exact ih det r hres
    · have hcol : collect_asset_docs det i.num_captured i.full_file_name i.uid i.now =
          collectPoll det [] r i.num_captured i.now := by
        rw [collect_asset_docs, if_neg h0, hres]
      rw [hcol]
      set r1 := (r.stream_datum i.num_captured i.now).2 with hr1
      have hres1 : (collectPoll det [] r i.num_captured i.now).det.resource = some r1 := by
        rw [collectPoll_det_resource]
      have hpres : r1.stream_resource = r.stream_resource :=
        stream_datum_snd_stream_resource r i.num_captured i.now
      rcases ih (collectPoll det [] r i.num_captured i.now).det r1 hres1 with
        ⟨hall, r2, hr2, hr2eq⟩
      refine ⟨?_, r2, hr2, hr2eq.trans hpres⟩
      intro a ha
      rcases List.mem_append.mp ha with hhead | htail
      · rcases collectPoll_assets det [] r i.num_captured i.now with hnone | ⟨d, hd, hduid⟩
        · rw [hnone] at hhead
          exact absurd hhead (List.not_mem_nil a)
        · rw [hd] at hhead
          simp at hhead
          exact ⟨d, hhead, hduid⟩
      · rcases hall a htail with ⟨d, hd, hduid⟩
        exact ⟨d, hd, by rw [hduid, hpres]⟩

theorem collectRun_none (inputs : List CollectInput) :
    ∀ det : HDFStreamerDet, det.resource = none →
    ((∀ i ∈ inputs, i.num_captured = 0) →
      (collectRun det inputs).1 = [] ∧ (collectRun det inputs).2.resource = none) ∧
    (∀ i0, inputs.find? (fun i => i.num_captured != 0) = some i0 →
      ∃ rest, (collectRun det inputs).1 =
        Asset.stream_resource
          { uid := i0.uid, spec := "AD_HDF5_SWMR_SLICE", root := "/",
            resource_path := i0.full_file_name } :: rest ∧
        ∀ a ∈ rest, ∃ d, a = Asset.stream_datum d ∧
          d.stream_resource = i0.uid) := by
  induction inputs with
  | nil =>
    intro det hres
    rw [collectRun]
    exact ⟨fun _ => ⟨rfl, hres⟩, fun i0 h => by cases h⟩
  | cons i rest ih =>
    intro det hres
    by_cases h0 : i.num_captured = 0
    · have hstep : collectRun det (i :: rest) = collectRun det rest := by
        rw [collectRun, h0, collect_zero]
        rfl
      have hfind : (i :: rest).find? (fun i => i.num_captured != 0) =
          rest.find? (fun i => i.num_captured != 0) :=
        List.find?_cons_of_neg _ (by simp [h0])
      rcases ih det hres with ⟨hzero, hsome⟩
      constructor
      · intro hall
        rw [hstep]
        exact hzero fun j hj => hall j (List.mem_cons_of_mem i hj)
      · intro i0 hi0
        rw [hfind] at hi0
        rw [hstep]
        exact hsome i0 hi0
    · -- first call with a nonzero count: the tracker is created here
      have hfind : (i :: rest).find? (fun i => i.num_captured != 0) = some i :=
        List.find?_cons_of_pos _ (by simp [h0])
      set r0 := HDFResource.init det.name i.full_file_name i.uid i.now with hr0
      have hcol : collect_asset_docs det i.num_captured i.full_file_name i.uid i.now =
          collectPoll det [Asset.stream_resource r0.stream_resource] r0
            i.num_captured i.now := by
        rw [collect_asset_docs, if_neg h0, hres]
      have hprog : r0.last_emitted < i.num_captured :=
        Nat.pos_of_ne_zero h0
      have hpoll : collectPoll det [Asset.stream_resource r0.stream_resource] r0
          i.num_captured i.now =
          { assets := [Asset.stream_resource r0.stream_resource,
              Asset.stream_datum (r0.composeDatum
                { start := r0.last_emitted, stop := i.num_captured })]
            ops := [HwOp.setFlushNow 1]
            det :=
              { det with
                resource := some
                  ({ r0 with
                     last_emitted := i.num_captured, last_flush := i.now }) }
            stalled := none } := by
        rw [collectPoll, stream_datum_progress_eq r0 i.num_captured i.now hprog]
        rfl
      constructor
      · intro hall
        exact absurd (hall i (List.mem_cons_self i rest)) h0
      · intro i0 hi0
        rw [hfind] at hi0
        cases hi0
        rw [collectRun, hcol, hpoll]
        set r1 : HDFResource :=
          { r0 with last_emitted := i.num_captured, last_flush := i.now } with hr1
        have hres1 : ({ det with resource := some r1 } : HDFStreamerDet).resource =
            some r1 := rfl
        rcases collectRun_some rest { det with resource := some r1 } r1 hres1 with
          ⟨hall, _, _, _⟩
        refine ⟨Asset.stream_datum (r0.composeDatum
            { start := r0.last_emitted, stop := i.num_captured }) ::
          (collectRun { det with resource := some r1 } rest).1, rfl, ?_⟩
        intro a ha
        rcases List.mem_cons.mp ha with rfl | ha2
        · exact ⟨_, rfl, rfl⟩
        · rcases hall a ha2 with ⟨d, hd, hduid⟩
          exact ⟨d, hd, hduid⟩

theorem getLast?_map_fst : ∀ l : List (Nat × Nat),
    (l.map Prod.fst).getLast? = l.getLast?.map Prod.fst
  | [] => rfl
  | [_] => rfl
  | p :: q :: rest => by
    simp only [List.map_cons]
    rw [List.getLast?_cons_cons, List.getLast?_cons_cons]
    simpa using getLast?_map_fst (q :: rest)

/-! Claim theorems. -/

/-- Claim C1: for every finite sequence of `stream_datum` polls on one
freshly constructed tracker with non-decreasing `num_captured` values, the
emitted chunk ranges form a contiguous chain starting at 0 (each chunk
starts where the previous one stopped and is nonempty), are pairwise
non-overlapping, and — whenever at least one chunk was emitted — the last
chunk's stop, the upper bound of the union of the ranges, equals the
latest `num_captured` passed to a call. -/
theorem pollRun_contiguous (name full_file_name uid : String) (t0 : Nat)
    (polls : List (Nat × Nat))
    (hmono : (polls.map Prod.fst).Pairwise (· ≤ ·)) :
    chunkChain 0 (pollRun (HDFResource.init name full_file_name uid t0) polls).1
      (pollRun (HDFResource.init name full_file_name uid t0) polls).2.last_emitted ∧
    ((pollRun (HDFResource.init name full_file_name uid t0) polls).1).Pairwise
      (fun a b => a.indices.stop ≤ b.indices.start) ∧
    (∀ c t, polls.getLast? = some (c, t) →
      (pollRun (HDFResource.init name full_file_name uid t0) polls).1 ≠ [] →
      (((pollRun (HDFResource.init name full_file_name uid t0) polls).1).getLast?).map
        (fun d => d.indices.stop) = some c) := by
  set s0 := HDFResource.init name full_file_name uid t0 with hs0
  have h0 : s0.last_emitted = 0 := rfl
  have hchain := pollRun_chunkChain polls s0
  rw [h0] at hchain
  refine ⟨hchain, chunkChain_pairwise _ _ _ hchain, ?_⟩
  intro c t hlast hne
  have hle : (pollRun s0 polls).2.last_emitted = c := by
    rw [pollRun_last_emitted polls s0, h0]
    refine foldl_max_getLast _ 0 c hmono (fun x _ => Nat.zero_le x) ?_
    rw [getLast?_map_fst, hlast]
    rfl
  rw [← hle]
  exact chunkChain_getLast _ _ _ hchain hne

theorem pollRun_contiguous_witness :
    (([(3, 1), (3, 2), (5, 10)] : List (Nat × Nat)).map Prod.fst).Pairwise (· ≤ ·) ∧
    chunkChain 0
      (pollRun (HDFResource.init "det" "f.h5" "u0" 0) [(3, 1), (3, 2), (5, 10)]).1
      (pollRun (HDFResource.init "det" "f.h5" "u0" 0)
        [(3, 1), (3, 2), (5, 10)]).2.last_emitted :=
  ⟨by decide,
   (pollRun_contiguous "det" "f.h5" "u0" 0 [(3, 1), (3, 2), (5, 10)] (by decide)).1⟩

/-- Claim C2: on a poll with `num_captured ≤ last_emitted`, if the clock
has advanced past the stall budget `FRAME_TIMEOUT = 120` since the stall
timer was last reset the poll fails with a `TimeoutError` whose message
names the artifact and the stuck frame index; otherwise it returns `None`
(no error), leaving the state unchanged in both cases. -/
theorem stream_datum_stall_or_quiet (s : HDFResource) (num_captured now : Nat)
    (h : num_captured ≤ s.last_emitted) :
    FRAME_TIMEOUT = 120 ∧
    (s.last_flush + FRAME_TIMEOUT < now →
      s.stream_datum num_captured now =
        (PollResult.stall
          (s.hdf_name ++ ": writing stalled on frame " ++ toString num_captured),
         s)) ∧
    (¬ s.last_flush + FRAME_TIMEOUT < now →
      s.stream_datum num_captured now = (PollResult.quiet, s)) := by
  have h1 : ¬ s.last_emitted < num_captured := Nat.not_lt_of_le h
  exact ⟨rfl,
    fun h2 => stream_datum_stall_eq s num_captured now h1 h2,
    fun h2 => stream_datum_quiet_eq s num_captured now h1 h2⟩

theorem stream_datum_stall_or_quiet_witness :
    (3 ≤ (sampleResource 5 0).last_emitted) ∧
    (sampleResource 5 0).stream_datum 3 121 =
      (PollResult.stall ("det" ++ ": writing stalled on frame " ++ toString 3),
       sampleResource 5 0) ∧
    (sampleResource 5 0).stream_datum 3 120 = (PollResult.quiet, sampleResource 5 0) :=
  ⟨by decide,
   (stream_datum_stall_or_quiet (sampleResource 5 0) 3 121 (by decide)).2.1 (by decide),
   (stream_datum_stall_or_quiet (sampleResource 5 0) 3 120 (by decide)).2.2 (by decide)⟩

/-- Claim C3: on a poll with `num_captured > last_emitted`, `stream_datum`
returns a chunk document whose index range is the half-open interval
`[last_emitted, num_captured)` and whose sequence-number range has the
same bounds, and afterwards `last_emitted` equals `num_captured` and the
stall timer is reset to `now`. -/
theorem stream_datum_progress (s : HDFResource) (num_captured now : Nat)
    (h : s.last_emitted < num_captured) :
    (s.stream_datum num_captured now).1 =
      PollResult.chunk
        { stream_resource := s.stream_resource.uid
          data_keys := [s.hdf_name]
          indices := { start := s.last_emitted, stop := num_captured }
          seq_nums := { start := s.last_emitted, stop := num_captured } } ∧
    ((s.stream_datum num_captured now).2).last_emitted = num_captured ∧
    ((s.stream_datum num_captured now).2).last_flush = now := by
  rw [stream_datum_progress_eq s num_captured now h]
  exact ⟨rfl, rfl, rfl⟩

theorem stream_datum_progress_witness :
    ((sampleResource 3 7).last_emitted < 5) ∧
    ((sampleResource 3 7).stream_datum 5 9).1 =
      PollResult.chunk
        { stream_resource := "u0"
          data_keys := ["det"]
          indices := { start := 3, stop := 5 }
          seq_nums := { start := 3, stop := 5 } } ∧
    (((sampleResource 3 7).stream_datum 5 9).2).last_emitted = 5 ∧
    (((sampleResource 3 7).stream_datum 5 9).2).last_flush = 9 :=
  ⟨by decide, stream_datum_progress (sampleResource 3 7) 5 9 (by decide)⟩

/-- Claim C10: a poll that raises the stall error leaves the tracker state
unchanged — `last_emitted` and the stall timestamp keep their prior
values — so a later poll that observes new frames still emits a chunk
starting exactly at the old watermark. -/
theorem stream_datum_stall_preserves_state (s : HDFResource)
    (num_captured now : Nat) (msg : String)
    (h : (s.stream_datum num_captured now).1 = PollResult.stall msg) :
    (s.stream_datum num_captured now).2 = s ∧
    ∀ c2 now2, s.last_emitted < c2 →
      (((s.stream_datum num_captured now).2).stream_datum c2 now2).1 =
        PollResult.chunk
          { stream_resource := s.stream_resource.uid
            data_keys := [s.hdf_name]
            indices := { start := s.last_emitted, stop := c2 }
            seq_nums := { start := s.last_emitted, stop := c2 } } := by
  have h1 : ¬ s.last_emitted < num_captured := by
    intro h1
    rw [stream_datum_progress_eq s num_captured now h1] at h
    cases h
  have hsnd : (s.stream_datum num_captured now).2 = s :=
    stream_datum_no_progress_snd s num_captured now h1
  refine ⟨hsnd, fun c2 now2 h2 => ?_⟩
  rw [hsnd, stream_datum_progress_eq s c2 now2 h2]
  rfl

theorem stream_datum_stall_preserves_state_witness :
    ((sampleResource 5 0).stream_datum 3 121).1 =
      PollResult.stall (stallMessage "det" 3) ∧
    ((sampleResource 5 0).stream_datum 3 121).2 = sampleResource 5 0 :=
  ⟨by decide,
   (stream_datum_stall_preserves_state (sampleResource 5 0) 3 121
     (stallMessage "det" 3) (by decide)).1⟩

/-- Claim C4: within one session (starting with no tracker, as `stage`
leaves it), the stream-resource announcement is emitted exactly once, by
the first `collect_asset_docs` call that observes a nonzero committed
frame count — it is the very first asset yielded in the session, built
from that call's observed file name and fresh uid, and every other asset
yielded in the session is a chunk document referencing that resource's
identifier.  If every call observes count 0, nothing is emitted.
`stage` resets the resource handle, so at most one exists per session. -/
theorem collectRun_resource_once (det : HDFStreamerDet)
    (hres : det.resource = none) (inputs : List CollectInput) :
    ((∀ i ∈ inputs, i.num_captured = 0) → (collectRun det inputs).1 = []) ∧
    (∀ i0, inputs.find? (fun i => i.num_captured != 0) = some i0 →
      ∃ rest, (collectRun det inputs).1 =
        Asset.stream_resource
          { uid := i0.uid, spec := "AD_HDF5_SWMR_SLICE", root := "/",
            resource_path := i0.full_file_name } :: rest ∧
        ∀ a ∈ rest, ∃ d, a = Asset.stream_datum d ∧
          d.stream_resource = i0.uid) ∧
    (∀ (det2 : HDFStreamerDet) (dir uid : String),
      ((stage det2 dir uid).2).resource = none) := by
  rcases collectRun_none inputs det hres with ⟨hzero, hfirst⟩
  exact ⟨fun hall => (hzero hall).1, hfirst, fun _ _ _ => rfl⟩

theorem collectRun_resource_once_witness :
    sampleDet.resource = none ∧
    ∃ rest,
      (collectRun sampleDet
        [⟨0, "g.h5", "u1", 0⟩, ⟨2, "f.h5", "u2", 1⟩]).1 =
        Asset.stream_resource
          { uid := "u2", spec := "AD_HDF5_SWMR_SLICE", root := "/",
            resource_path := "f.h5" } :: rest ∧
      ∀ a ∈ rest, ∃ d, a = Asset.stream_datum d ∧ d.stream_resource = "u2" :=
  ⟨rfl,
   (collectRun_resource_once sampleDet rfl
     [⟨0, "g.h5", "u1", 0⟩, ⟨2, "f.h5", "u2", 1⟩]).2.1
     ⟨2, "f.h5", "u2", 1⟩ (by decide)⟩

/-- Claim C5, counterexample: the claim says `kickoff()` called before
`stage()` fails rather than proceeding.  The source performs no staging
check in `kickoff`: on a freshly constructed detector (no `stage` call,
`_capture_status` still `None`) it proceeds to set the acquisition mode to
multiple and to command acquire-active, and returns normally (its result
type has no failure outcome, mirroring the absence of any check or raise
in the source). -/
theorem kickoff_unstaged_proceeds_counterexample :
    sampleDet.capture_status = false ∧
    (kickoff sampleDet).1 =
      [HwOp.setImageMode ImageMode.multiple, HwOp.setAndWaitAcquire true] ∧
    (kickoff sampleDet).2.drv.image_mode = ImageMode.multiple ∧
    (kickoff sampleDet).2.drv.acquire = true ∧
    (kickoff sampleDet).2.start_status = true := by
  decide

/-- Claim C5, amended: `kickoff()` performs no staging-precondition check;
whether or not `stage()` has completed in the current session it proceeds
to set the acquisition mode to multiple, commands acquire-active with a
synchronous wait for confirmation, and retains the confirmation status. -/
theorem kickoff_no_stage_check (det : HDFStreamerDet) :
    (kickoff det).1 =
      [HwOp.setImageMode ImageMode.multiple, HwOp.setAndWaitAcquire true] ∧
    (kickoff det).2 =
      { det with
        start_status := true
        drv := { det.drv with image_mode := ImageMode.multiple, acquire := true } } :=
  ⟨rfl, rfl⟩

/-- Claim C6: `unstage()` without a prior `stage()` in the session (no
retained capture status) fails immediately with the precondition error
`"Stage not run"`, and `complete()` without a prior `kickoff()` (no
retained start status) fails immediately with `"Kickoff not run"`; in
both cases the empty operation trace shows no hardware operation is
performed before failing. -/
theorem complete_unstage_precondition (det : HDFStreamerDet) :
    (det.capture_status = false →
      unstage det = ([], Except.error "Stage not run")) ∧
    (det.start_status = false →
      complete det = ([], Except.error "Kickoff not run")) := by
  constructor
  · intro h
    rw [unstage, if_neg (by simp [h])]
  · intro h
    rw [complete, if_neg (by simp [h])]

theorem complete_unstage_precondition_witness :
    sampleDet.capture_status = false ∧
    unstage sampleDet = ([], Except.error "Stage not run") ∧
    sampleDet.start_status = false ∧
    complete sampleDet = ([], Except.error "Kickoff not run") :=
  ⟨rfl, (complete_unstage_precondition sampleDet).1 rfl, rfl,
   (complete_unstage_precondition sampleDet).2 rfl⟩

/-- Claim C7: `stage()` configures the writer for unbounded streaming
capture — capture count 0, stream write mode, lazy-open and SWMR flags
set, file name the session name plus a fresh unique suffix, directory
from the Directory Provider — and only after those writes commands
capture-active with a synchronous wait for confirmation, retaining the
confirmation status. -/
theorem stage_configures_streaming_capture (det : HDFStreamerDet)
    (directory uid : String) :
    (stage det directory uid).1 =
      [HwOp.setWaitForPlugins true, HwOp.setLazyOpen true, HwOp.setSwmrMode true,
       HwOp.setFilePath directory, HwOp.setFileName (det.name ++ "-" ++ uid),
       HwOp.setFileTemplate "%s/%s.h5", HwOp.setNumCapture 0,
       HwOp.setFileWriteMode FileWriteMode.stream, HwOp.setAndWaitCapture true] ∧
    ((stage det directory uid).1).getLast? = some (HwOp.setAndWaitCapture true) ∧
    (stage det directory uid).2.hdf.num_capture = 0 ∧
    (stage det directory uid).2.hdf.file_write_mode = FileWriteMode.stream ∧
    (stage det directory uid).2.hdf.lazy_open = true ∧
    (stage det directory uid).2.hdf.swmr_mode = true ∧
    (stage det directory uid).2.hdf.file_name = det.name ++ "-" ++ uid ∧
    (stage det directory uid).2.hdf.file_path = directory ∧
    (stage det directory uid).2.hdf.capture = true ∧
    (stage det directory uid).2.capture_status = true :=
  ⟨rfl, rfl, rfl, rfl, rfl, rfl, rfl, rfl, rfl, rfl⟩

/-- Claim C8: `trigger()` on the streaming detector sets the acquisition
mode to single, computes the operation timeout as the fixed base
`DEFAULT_TIMEOUT` plus the exposure time read from the driver, and
commands acquire-active with exactly that timeout. -/
theorem trigger_single_shot_timeout (det : HDFStreamerDet) :
    (trigger det).1 =
      [HwOp.setImageMode ImageMode.single,
       HwOp.setAcquire true (some (DEFAULT_TIMEOUT + det.drv.acquire_time))] ∧
    (trigger det).2.drv.image_mode = ImageMode.single ∧
    (trigger det).2.drv.acquire = true :=
  ⟨rfl, rfl, rfl⟩

/-- Claim C9: a `collect_asset_docs` call that observes a committed-frame
count of 0 yields no assets, issues no hardware operation, cannot raise
the stall error, and leaves the detector unchanged — in particular the
tracker (and with it the stall timer) is not created — no matter how much
time has elapsed. -/
theorem collect_asset_docs_zero_count_safe (det : HDFStreamerDet)
    (full_file_name uid : String) (now : Nat) :
    collect_asset_docs det 0 full_file_name uid now =
      { assets := [], ops := [], det := det, stalled := none } :=
  collect_zero det full_file_name uid now

end AreaDetector
